import Mathlib

/-!
Shallow embedding of the `lazy` Rust crate (`src/lib.rs`): a single-slot
lazy-initialization cell `Lazy<T, E>` whose initializer is bound to the
value type through the `LazyInit<T, E>` trait and may fail with a typed
error `E`.

The cell's mutable slot `inner : UnsafeCell<State<T>>` is modelled by
explicit state passing: each method becomes a function from the current
`State T` to its return value paired with the state afterwards.  A Rust
`panic!` / `unreachable!` is modelled by the `RunResult.panicked`
constructor carrying the panic message; since a panic aborts the single
thread before any further state is observed, a panicked result carries no
successor state.  The statically bound `<T as LazyInit<T, E>>::init()` is
modelled by an explicit argument `init : Except E T` (the trait method
takes no input, so one `Except` value determines it), and the functions
that may invoke it additionally return the number of times `init` ran, so
that "the initializer executes exactly once" is statable.
-/

namespace LazyRs

/-- The `State<T>` enum of the source: `Unevaluated`, `InProgress`,
`Evaluated(T)`. -/
inductive State (T : Type) where
  | Unevaluated : State T
  | InProgress : State T
  | Evaluated : T → State T
deriving DecidableEq, Repr

/-- Rank of a state along the forward order
`Unevaluated → InProgress → Evaluated` described by the spec. -/
def State.rank {T : Type} : State T → Nat
  | .Unevaluated => 0
  | .InProgress => 1
  | .Evaluated _ => 2

/-- Whether a state is `Evaluated`. -/
def State.isEvaluated {T : Type} : State T → Prop
  | .Evaluated _ => True
  | _ => False

/-- Outcome of running one cell method: either a Rust panic with its
message, or a normal return carrying the return value and the cell state
afterwards. -/
inductive RunResult (α : Type) (T : Type) where
  | panicked : String → RunResult α T
  | returned : α → State T → RunResult α T
deriving DecidableEq, Repr

/-- The message of the reentrancy `panic!` in `Lazy::set` and
`Lazy::evaluate`. -/
def reentrantMsg : String := "Lazy evaluation called from itself."

/-- The message produced by the `unreachable!()` macro at the end of
`Lazy::get` and `Lazy::get_mut`. -/
def unreachableMsg : String := "internal error: entered unreachable code"

/-- `Lazy::new` (and `Default::default`): a fresh cell starts with
`State::Unevaluated`. -/
def Lazy.new {T : Type} : State T := .Unevaluated

/-- `Lazy::set`: panics if evaluation is in progress, otherwise overwrites
the slot with `State::Evaluated(value)`. -/
def Lazy.set {T : Type} (s : State T) (value : T) : RunResult Unit T :=
  match s with
  | .InProgress => .panicked reentrantMsg
  | _ => .returned () (.Evaluated value)

/-- `Lazy::get_maybe`: reads the slot, returns `Some(&T)` when evaluated,
`None` otherwise; the slot is not written, so the state component of the
result is the input state. -/
def Lazy.get_maybe {T : Type} (s : State T) : Option T × State T :=
  match s with
  | .Evaluated val => (some val, s)
  | _ => (none, s)

/-- `Lazy::get_maybe_mut`: same body as `get_maybe` with a mutable
borrow of the slot. -/
def Lazy.get_maybe_mut {T : Type} (s : State T) : Option T × State T :=
  match s with
  | .Evaluated val => (some val, s)
  | _ => (none, s)

/-- `Lazy::evaluate`: returns `Ok(())` at once when already evaluated,
panics when in progress, and otherwise replaces the slot with
`InProgress`, runs `init()`, and on success stores `Evaluated(init())`.
On `Err(e)` the `?` operator returns the error early, so the slot keeps
the `InProgress` written by `ptr::replace`.  The second component counts
invocations of `init`. -/
def Lazy.evaluate {T E : Type} (init : Except E T) (s : State T) :
    RunResult (Except E Unit) T × Nat :=
  match s with
  | .Evaluated _ => (.returned (.ok ()) s, 0)
  | .InProgress => (.panicked reentrantMsg, 0)
  | .Unevaluated =>
    match init with
    | .ok v => (.returned (.ok ()) (.Evaluated v), 1)
    | .error e => (.returned (.error e) .InProgress, 1)

/-- `Lazy::get`: runs `evaluate` (propagating its error with `?`), then
reads the slot; an `Evaluated` slot yields `Ok(&val)`, any other slot
reaches `unreachable!()`. -/
def Lazy.get {T E : Type} (init : Except E T) (s : State T) :
    RunResult (Except E T) T × Nat :=
  match Lazy.evaluate init s with
  | (.panicked m, n) => (.panicked m, n)
  | (.returned (.error e) s', n) => (.returned (.error e) s', n)
  | (.returned (.ok ()) s', n) =>
    match s' with
    | .Evaluated val => (.returned (.ok val) (.Evaluated val), n)
    | _ => (.panicked unreachableMsg, n)

/-- `Lazy::get_mut`: textually the same body as `get`, with mutable
borrows. -/
def Lazy.get_mut {T E : Type} (init : Except E T) (s : State T) :
    RunResult (Except E T) T × Nat :=
  match Lazy.evaluate init s with
  | (.panicked m, n) => (.panicked m, n)
  | (.returned (.error e) s', n) => (.returned (.error e) s', n)
  | (.returned (.ok ()) s', n) =>
    match s' with
    | .Evaluated val => (.returned (.ok val) (.Evaluated val), n)
    | _ => (.panicked unreachableMsg, n)

/-- `impl LazyInit<()> for ()`: the built-in initializer of the unit type
always returns `Ok(())` (with the default error type, itself `()`). -/
def unitInit : Except Unit Unit := Except.ok ()

/-- Running `get` a number of times on one cell, threading the state and
summing the `init` invocation counts.  A panic aborts the sequence. -/
def Lazy.getN {T E : Type} (init : Except E T) (s : State T) :
    Nat → List (RunResult (Except E T) T) × State T × Nat
  | 0 => ([], s, 0)
  | n + 1 =>
    match Lazy.get init s with
    | (.panicked m, k) => ([.panicked m], s, k)
    | (.returned r s', k) =>
      let rest := Lazy.getN init s' n
      (.returned r s' :: rest.1, rest.2.1, k + rest.2.2)

/-- The methods of the cell, as a step alphabet for the state machine. -/
inductive Op (T E : Type) where
  | set : T → Op T E
  | evaluate : Op T E
  | get : Op T E
  | getMut : Op T E
  | getMaybe : Op T E
  | getMaybeMut : Op T E

/-- The state after one method call, when the call returns (a panicking
call aborts the thread, so it has no successor state). -/
def stepState {T E : Type} (init : Except E T) : Op T E → State T → Option (State T)
  | .set v, s =>
    match Lazy.set s v with
    | .returned _ s' => some s'
    | .panicked _ => none
  | .evaluate, s =>
    match Lazy.evaluate init s with
    | (.returned _ s', _) => some s'
    | (.panicked _, _) => none
  | .get, s =>
    match Lazy.get init s with
    | (.returned _ s', _) => some s'
    | (.panicked _, _) => none
  | .getMut, s =>
    match Lazy.get_mut init s with
    | (.returned _ s', _) => some s'
    | (.panicked _, _) => none
  | .getMaybe, s => some (Lazy.get_maybe s).2
  | .getMaybeMut, s => some (Lazy.get_maybe_mut s).2


/-- Running `get` any number of times on a cell already in `Evaluated v`
returns `Ok(v)` each time, never touches `init`, and keeps the state. -/
lemma getN_evaluated {T E : Type} (init : Except E T) (v : T) : ∀ n : Nat,
    Lazy.getN init (.Evaluated v) n =
      (List.replicate n (.returned (.ok v) (.Evaluated v)), .Evaluated v, 0)
  | 0 => rfl
  | n + 1 => by
    simp [Lazy.getN, Lazy.get, Lazy.evaluate, getN_evaluated init v n,
      List.replicate]

/-- Claim C1: for a cell whose bound initializer succeeds with `v`,
calling `get()` N ≥ 1 times from a fresh cell returns `Ok(v)` (the same
value) every time, and the initializer runs exactly once regardless of N. -/
theorem get_idempotent_init_once {T E : Type} (v : T) (n : Nat) (h : 1 ≤ n) :
    Lazy.getN (E := E) (Except.ok v) Lazy.new n =
      (List.replicate n (.returned (.ok v) (.Evaluated v)), .Evaluated v, 1) := by
  obtain ⟨m, rfl⟩ : ∃ m, n = m + 1 := ⟨n - 1, (Nat.succ_pred_eq_of_pos h).symm⟩
  simp [Lazy.getN, Lazy.new, Lazy.get, Lazy.evaluate, getN_evaluated,
    List.replicate]

/-- Witness for C1 at `T = Nat`, `v = 3`, `N = 2`. -/
theorem get_idempotent_init_once_witness :
    (1 : Nat) ≤ 2 ∧
    Lazy.getN (E := Unit) (Except.ok (3 : Nat)) Lazy.new 2 =
      (List.replicate 2 (.returned (.ok 3) (.Evaluated 3)), .Evaluated 3, 1) :=
  ⟨by decide, get_idempotent_init_once 3 2 (by decide)⟩

/-- Claim C2: on an `Unevaluated` cell whose initializer returns
`Err(e)`, `get()` returns exactly that error `e` unchanged (after one
initializer run), and the cell is left in `InProgress`. -/
theorem get_error_propagates {T E : Type} (e : E) :
    Lazy.get (T := T) (Except.error e) .Unevaluated =
      (.returned (.error e) .InProgress, 1) := rfl

/-- Claim C3: on an `InProgress` cell, `get()`, `get_mut()` and `set()`
all panic with the reentrancy message; none of them returns a value or an
error. -/
theorem inprogress_get_set_abort {T E : Type} (init : Except E T) (v : T) :
    Lazy.get init (.InProgress : State T) = (.panicked reentrantMsg, 0) ∧
    Lazy.get_mut init (.InProgress : State T) = (.panicked reentrantMsg, 0) ∧
    Lazy.set (.InProgress : State T) v = .panicked reentrantMsg :=
  ⟨rfl, rfl, rfl⟩

/-- Claim C4: every operation that returns moves the state only forward
along `Unevaluated → InProgress → Evaluated`; in particular an
`Evaluated` cell stays `Evaluated`. -/
theorem step_monotone {T E : Type} (init : Except E T) (op : Op T E)
    (s s' : State T) (h : stepState init op s = some s') :
    s.rank ≤ s'.rank ∧ ∀ w, s = .Evaluated w → ∃ u, s' = .Evaluated u := by
  rcases init with e | v <;> cases op <;> cases s <;>
    simp only [stepState, Lazy.set, Lazy.evaluate, Lazy.get, Lazy.get_mut,
      Lazy.get_maybe, Lazy.get_maybe_mut, Option.some.injEq,
      reduceCtorEq] at h <;>
    first
      | exact h.elim
      | (subst h
         exact ⟨by simp [State.rank, Lazy.get_maybe, Lazy.get_maybe_mut],
           fun w hw => by cases hw <;> exact ⟨_, rfl⟩⟩)

/-- Witness for C4: `set 3` on a fresh cell steps to `Evaluated 3`. -/
theorem step_monotone_witness :
    stepState (Except.ok 0 : Except Unit Nat) (Op.set 3) (Lazy.new : State Nat) =
      some (.Evaluated 3) ∧
    ((Lazy.new : State Nat).rank ≤ (State.Evaluated 3 : State Nat).rank ∧
      ∀ w, (Lazy.new : State Nat) = .Evaluated w →
        ∃ u, (State.Evaluated 3 : State Nat) = .Evaluated u) :=
  ⟨rfl, step_monotone (Except.ok 0 : Except Unit Nat) (Op.set 3) Lazy.new
    (.Evaluated 3) rfl⟩

/-- Claim C5: on any cell not in `InProgress`, `set(v)` unconditionally
yields `Evaluated(v)` (silently replacing a prior value, without touching
the initializer); afterwards `get()` returns `Ok(v)` with zero initializer
runs and `peek` observes `v`. -/
theorem set_overwrites {T E : Type} (init : Except E T) (s : State T) (v : T)
    (h : s ≠ .InProgress) :
    Lazy.set s v = .returned () (.Evaluated v) ∧
    Lazy.get init (.Evaluated v) = (.returned (.ok v) (.Evaluated v), 0) ∧
    Lazy.get_maybe (.Evaluated v) = (some v, .Evaluated v) := by
  refine ⟨?_, rfl, rfl⟩
  cases s with
  | Unevaluated => rfl
  | InProgress => exact absurd rfl h
  | Evaluated w => rfl

/-- Witness for C5: overwriting an already-`Evaluated` cell. -/
theorem set_overwrites_witness :
    (State.Evaluated 9 : State Nat) ≠ .InProgress ∧
    (Lazy.set (.Evaluated 9 : State Nat) 4 = .returned () (.Evaluated 4) ∧
      Lazy.get (E := Unit) (Except.ok 0) (.Evaluated 4) =
        (.returned (.ok 4) (.Evaluated 4), 0) ∧
      Lazy.get_maybe (.Evaluated (4 : Nat)) = (some 4, .Evaluated 4)) :=
  ⟨by decide, set_overwrites (Except.ok 0) (.Evaluated 9) 4 (by decide)⟩

/-- Claim C6: `get_maybe` returns `Some v` iff the cell is `Evaluated v`,
never changes the state, and on a fresh cell returns `None` (construction
runs no initializer). -/
theorem peek_iff_evaluated {T : Type} (s : State T) (v : T) :
    ((Lazy.get_maybe s).1 = some v ↔ s = .Evaluated v) ∧
    (Lazy.get_maybe s).2 = s ∧
    Lazy.get_maybe (Lazy.new : State T) = (none, Lazy.new) := by
  refine ⟨?_, ?_, rfl⟩
  · cases s <;> simp [Lazy.get_maybe]
  · cases s <;> rfl

/-- Witness for C6 at `s = Evaluated 3`, `v = 3`. -/
theorem peek_iff_evaluated_witness :
    (((Lazy.get_maybe (.Evaluated 3 : State Nat)).1 = some 3) ↔
      ((.Evaluated 3 : State Nat) = .Evaluated 3)) ∧
    (Lazy.get_maybe (.Evaluated 3 : State Nat)).2 = .Evaluated 3 ∧
    Lazy.get_maybe (Lazy.new : State Nat) = (none, Lazy.new) :=
  peek_iff_evaluated (.Evaluated 3) 3

/-- Claim C7: `get_mut` has semantics identical to `get` from every
starting state: same value or error, same panics, same resulting state,
same initializer-run count. -/
theorem get_mut_equals_get {T E : Type} (init : Except E T) (s : State T) :
    Lazy.get_mut init s = Lazy.get init s := rfl

/-- Claim C8: the unit type's built-in initializer always returns
`Ok(())`, so whenever `get()` on a unit cell returns (rather than
panicking), its result is `Ok`, never an error. -/
theorem unit_init_never_errors :
    unitInit = Except.ok () ∧
    ∀ (s : State Unit) (r : Except Unit Unit) (s' : State Unit) (n : Nat),
      Lazy.get unitInit s = (.returned r s', n) → r = .ok () := by
  refine ⟨rfl, ?_⟩
  intro s r s' n h
  cases s <;> simp_all [Lazy.get, Lazy.evaluate, unitInit]

/-- Witness for C8 on a fresh unit cell. -/
theorem unit_init_never_errors_witness :
    Lazy.get unitInit (.Unevaluated : State Unit) =
      (.returned (Except.ok ()) (.Evaluated ()), 1) ∧
    (Except.ok () : Except Unit Unit) = .ok () :=
  ⟨rfl, unit_init_never_errors.2 .Unevaluated (.ok ()) (.Evaluated ()) 1 rfl⟩

/-- Claim C10: whenever `evaluate` returns `Ok(())` the cell is
`Evaluated`, so the `unreachable!()` branches of `get`/`get_mut` are never
reached: both return `Ok` with the evaluated value. -/
theorem evaluate_ok_evaluated {T E : Type} (init : Except E T)
    (s s' : State T) (n : Nat)
    (h : Lazy.evaluate init s = (.returned (.ok ()) s', n)) :
    ∃ v, s' = .Evaluated v ∧
      Lazy.get init s = (.returned (.ok v) s', n) ∧
      Lazy.get_mut init s = (.returned (.ok v) s', n) := by
  cases s with
  | InProgress => exact absurd h (by simp [Lazy.evaluate])
  | Evaluated w =>
    have h' : (RunResult.returned (Except.ok ()) (State.Evaluated w), 0) =
        ((RunResult.returned (Except.ok ()) s' : RunResult (Except E Unit) T), n) := h
    injection h' with h1 h2
    injection h1 with h3 h4
    subst h4; subst h2
    exact ⟨w, rfl, rfl, rfl⟩
  | Unevaluated =>
    cases init with
    | error e => exact absurd h (by simp [Lazy.evaluate])
    | ok v =>
      have h' : (RunResult.returned (Except.ok ()) (State.Evaluated v), 1) =
          ((RunResult.returned (Except.ok ()) s' : RunResult (Except E Unit) T), n) := h
      injection h' with h1 h2
      injection h1 with h3 h4
      subst h4; subst h2
      exact ⟨v, rfl, rfl, rfl⟩

/-- Witness for C10 at a fresh `Nat` cell with a succeeding
initializer. -/
theorem evaluate_ok_evaluated_witness :
    Lazy.evaluate (E := Unit) (Except.ok (5 : Nat)) .Unevaluated =
      (.returned (.ok ()) (.Evaluated 5), 1) ∧
    ∃ v, (State.Evaluated 5 : State Nat) = .Evaluated v ∧
      Lazy.get (E := Unit) (Except.ok 5) .Unevaluated =
        (.returned (.ok v) (.Evaluated 5), 1) ∧
      Lazy.get_mut (E := Unit) (Except.ok 5) .Unevaluated =
        (.returned (.ok v) (.Evaluated 5), 1) :=
  ⟨rfl, evaluate_ok_evaluated (Except.ok 5) .Unevaluated (.Evaluated 5) 1 rfl⟩

end LazyRs
